import Mathlib

/-!
Verification of the kgserver bundle-ingestion and storage layer.

The development shallowly embeds the Python sources:
  storage/backends/sqlite.py, storage/backends/postgres.py,
  storage/models/{entity,relationship,bundle}.py, query/bundle.py,
  query/bundle_loader.py, validation.py.

JSON rows are modelled as insertion-ordered association lists of string
keys (the semantics of Python dicts); machine-level details that no
claim touches (float payload columns, uuid byte layout) are modelled by
opaque surrogates noted at each definition.
-/

set_option autoImplicit false

namespace KG

/-- JSON values as decoded by json.loads: null, booleans, numbers
(integers suffice for every claim; no float arithmetic is performed on
row values anywhere in the embedded code), strings, arrays, objects.
Objects are insertion-ordered key/value lists, matching Python dicts. -/
inductive JVal where
  | null
  | bool (b : Bool)
  | num (n : Int)
  | str (s : String)
  | arr (elems : List JVal)
  | obj (fields : List (String × JVal))

mutual

/-- Structural equality of JSON values, the equality the database applies
to column values (used by session.merge keying and unique constraints). -/
def JVal.beq : JVal → JVal → Bool
  | .null, .null => true
  | .bool a, .bool b => a == b
  | .num a, .num b => a == b
  | .str a, .str b => a == b
  | .arr a, .arr b => JVal.beqList a b
  | .obj a, .obj b => JVal.beqFields a b
  | _, _ => false

/-- Elementwise equality of JSON arrays. -/
def JVal.beqList : List JVal → List JVal → Bool
  | [], [] => true
  | a :: as, b :: bs => JVal.beq a b && JVal.beqList as bs
  | _, _ => false

/-- Elementwise equality of JSON object field lists. -/
def JVal.beqFields : List (String × JVal) → List (String × JVal) → Bool
  | [], [] => true
  | (ka, va) :: as, (kb, vb) :: bs => ka == kb && JVal.beq va vb && JVal.beqFields as bs
  | _, _ => false

end

instance : BEq JVal := ⟨JVal.beq⟩

/-- A Python dict with string keys: insertion-ordered association list. -/
abbrev Dict := List (String × JVal)

/-- Python membership test: key in d. -/
def hasKey (d : Dict) (k : String) : Bool :=
  d.any (fun kv => kv.1 == k)

/-- Python lookup d.get(k): value of the first (unique) binding of k. -/
def dlookup (d : Dict) (k : String) : Option JVal :=
  match d with
  | [] => none
  | (k2, v) :: rest => if k2 == k then some v else dlookup rest k

/-- Python assignment d[k] = v: replace the binding in place when the key
exists, otherwise append the new binding at the end. -/
def dset (d : Dict) (k : String) (v : JVal) : Dict :=
  match d with
  | [] => [(k, v)]
  | (k2, w) :: rest => if k2 == k then (k2, v) :: rest else (k2, w) :: dset rest k v

/-- Python d.pop(k, None): remove the binding of k when present. -/
def dpop (d : Dict) (k : String) : Dict :=
  match d with
  | [] => []
  | (k2, v) :: rest => if k2 == k then rest else (k2, v) :: dpop rest k

/-- Python d.update(m): assign every binding of m into d, in order. -/
def dupdate (d : Dict) (m : Dict) : Dict :=
  m.foldl (fun acc kv => dset acc kv.1 kv.2) d

/-- The four keys that _normalize_entity lifts out of a metadata map. -/
def entityLiftKeys : List String :=
  ["status", "usage_count", "source", "created_at"]

/-- The lifting loop of _normalize_entity: for each key in order, copy it
from meta to the row when it is present in meta and absent from the row.
The key is read (not removed) from meta, exactly as the source does. -/
def liftKeys (ks : List String) (meta : Dict) (r : Dict) : Dict :=
  match ks with
  | [] => r
  | k :: rest =>
      let r2 :=
        if hasKey meta k && !hasKey r k then
          match dlookup meta k with
          | some v => dset r k v
          | none => r
        else r
      liftKeys rest meta r2

/-- The result.setdefault(properties, dict()).update(meta) idiom shared by
both normalizers: merge meta into the properties object of the row,
creating it when absent. Returns none when the row carries a
non-object properties value, where the Python raises AttributeError. -/
def mergeIntoProps (r : Dict) (meta : Dict) : Option Dict :=
  match dlookup r "properties" with
  | some (JVal.obj p) => some (dset r "properties" (JVal.obj (dupdate p meta)))
  | none => some (dset r "properties" (JVal.obj (dupdate [] meta)))
  | some _ => none

/-- SQLiteStorage._normalize_entity, translated line by line. The none
result models the AttributeError raised by .update when the row has a
non-object properties field. -/
def normalize_entity (data : Dict) : Option Dict :=
  let result := data
  match dlookup result "metadata" with
  | some (JVal.obj meta) =>
      let result := dpop result "metadata"
      let result := liftKeys entityLiftKeys meta result
      if meta.isEmpty then some result
      else mergeIntoProps result meta
  | _ => some result

/-- One renaming line of _normalize_relationship: when the producer
field is present and the canonical field absent, pop the producer field
and assign its value under the canonical name. -/
def renamePair (d : Dict) (src dst : String) : Dict :=
  if hasKey d src && !hasKey d dst then
    match dlookup d src with
    | some v => dset (dpop d src) dst v
    | none => d
  else d

/-- The source_documents lift of _normalize_relationship: pop the key
out of meta into the row when the row does not already carry it;
returns the updated (meta, row) pair. -/
def liftSourceDocs (meta result : Dict) : Dict × Dict :=
  if hasKey meta "source_documents" && !hasKey result "source_documents" then
    match dlookup meta "source_documents" with
    | some v => (dpop meta "source_documents", dset result "source_documents" v)
    | none => (meta, result)
  else (meta, result)

/-- The metadata block of _normalize_relationship followed by the
trailing pops of relationship_id and evidence_document_id, which run on
every non-raising path, as in the source. -/
def metadataStage (result : Dict) : Option Dict :=
  match dlookup result "metadata" with
  | some (JVal.obj meta) =>
      let result2 := dpop result "metadata"
      let pair := liftSourceDocs meta result2
      match mergeIntoProps pair.2 pair.1 with
      | some r2 => some (dpop (dpop r2 "relationship_id") "evidence_document_id")
      | none => none
  | _ => some (dpop (dpop result "relationship_id") "evidence_document_id")

/-- SQLiteStorage._normalize_relationship, translated line by line:
the two renames, then the metadata block and trailing pops. -/
def normalize_relationship (data : Dict) : Option Dict :=
  metadataStage
    (renamePair (renamePair data "source_entity_id" "subject_id")
      "target_entity_id" "object_id")

/-- Python str.strip at the code-point level (string operations of the
embedded code are modelled on code-point lists, since the builtin
byte-position string functions do not reduce): drop whitespace from
both ends. -/
def pyStrip (s : String) : String :=
  ⟨((s.data.dropWhile Char.isWhitespace).reverse.dropWhile Char.isWhitespace).reverse⟩

/-- Python p[1] == ":" guarded by len(p) >= 2: the second code point is
a colon (the drive-letter-prefix test of validation.py). -/
def secondCharIsColon : List Char → Bool
  | _ :: c :: _ => c == ':'
  | _ => false

/-- Python p.startswith of a one-character separator. -/
def headIsSlash : List Char → Bool
  | c :: _ => c == '/'
  | [] => false

/-- Python str.replace for single characters, at code-point level. -/
def replaceChar (a b : Char) (l : List Char) : List Char :=
  l.map (fun c => if c == a then b else c)

/-- Needle is an initial run of hay (character lists). -/
def startsList : List Char → List Char → Bool
  | [], _ => true
  | _ :: _, [] => false
  | a :: as, b :: bs => a == b && startsList as bs

/-- Needle occurs contiguously somewhere in hay. -/
def containsSub (needle : List Char) : List Char → Bool
  | [] => startsList needle []
  | c :: t => startsList needle (c :: t) || containsSub needle t

/-- Python str.split on the characters a predicate selects: the list of
maximal runs between separator occurrences, keeping empty runs, so that
splitting the empty string yields one empty segment. -/
def splitOnPred (f : Char → Bool) : List Char → List (List Char)
  | [] => [[]]
  | c :: t =>
      if f c then [] :: splitOnPred f t
      else
        match splitOnPred f t with
        | [] => [[c]]
        | seg :: rest => (c :: seg) :: rest

/-- The traversal test of validation.py: replace backslashes by
slashes, split on slash, and look for a dot-dot segment. -/
def hasDotDotSegment (p : List Char) : Bool :=
  (splitOnPred (fun c => c == '/') (replaceChar '\\' '/' p)).any
    (fun seg => seg == ['.', '.'])

/-- validation.py _validate_relative_path: strip, reject empty, reject a
leading slash or a drive-letter prefix, reject any dot-dot segment,
otherwise return the stripped path. The none result models the raised
ValueError. -/
def validate_relative_path (s : String) : Option String :=
  let p := pyStrip s
  if p.isEmpty then none
  else if headIsSlash p.data || secondCharIsColon p.data then none
  else if hasDotDotSegment p.data then none
  else some p

/-- Either path separator character, as the specification reads them. -/
def isPathSep (c : Char) : Bool :=
  c == '/' || c == '\\'

/-- The acceptance predicate exactly as the specification words it: the
trimmed input is non-empty, does not begin with a path separator, has
no drive-letter prefix, and splitting on either separator yields no
dot-dot segment. -/
def claimAccepts (s : String) : Bool :=
  let p := pyStrip s
  !p.isEmpty && !headIsSlash p.data && !secondCharIsColon p.data &&
    !((splitOnPred isPathSep p.data).any (fun seg => seg == ['.', '.']))

/-- The path components computed by PurePosixPath.parts on the server
platform: split on slash, dropping empty and single-dot components. -/
def posixParts (l : List Char) : List (List Char) :=
  (splitOnPred (fun c => c == '/') l).filter
    (fun seg => !(seg.isEmpty || seg == ['.']))

/-- query/bundle.py FileRef._path_must_be_relative on the posix platform
the server runs on: Path(v).is_absolute() is a leading slash, and the
dot-dot test inspects Path(v).parts. -/
def fileRefPathOk (v : String) : Bool :=
  !headIsSlash v.data && !(posixParts v.data).any (fun seg => seg == ['.', '.'])

/-- Serialization format of a bundle data file (query/bundle.py). -/
inductive BundleFormat where
  | json
  | jsonl
deriving DecidableEq

/-- A validated reference to a file inside the bundle directory. -/
structure FileRef where
  path : String
  format : BundleFormat
deriving DecidableEq

/-- Errors raised during manifest validation (pydantic ValidationError
causes, tagged by which validator fired). -/
inductive ManifestErr where
  | emptyDomain
  | invalidPath (p : String)
deriving DecidableEq

/-- Constructing a FileRef runs its path validator. -/
def mkFileRef (path : String) (format : BundleFormat) : Except ManifestErr FileRef :=
  if fileRefPathOk path then .ok ⟨path, format⟩ else .error (.invalidPath path)

/-- Bundle version as it arrives: a bare integer or an already-tagged
string (query/bundle.py bundle_version field). -/
inductive BundleVersion where
  | vint (n : Int)
  | vstr (s : String)
deriving DecidableEq

/-- BundleManifestV1.get_version_str. -/
def getVersionStr : BundleVersion → String
  | .vint n => "v" ++ toString n
  | .vstr s => s

/-- A structured file reference as it appears in the raw manifest
document, with the format already defaulted by the FileRef model. -/
structure RawFileRef where
  path : String
  format : BundleFormat
deriving DecidableEq

/-- The raw manifest document handed to BundleManifestV1, after JSON
decoding. Timestamps are opaque integers. The id_fields, label and
metadata fields are carried through verbatim by the source and read by
no embedded operation, so they are not modelled. -/
structure RawManifest where
  bundle_version : BundleVersion
  domain : String
  created_at : Int
  bundle_id : String
  entities : Option RawFileRef
  relationships : Option RawFileRef
  entities_file : Option String
  relationships_file : Option String
  documents : Option RawFileRef
  documents_file : Option String
deriving DecidableEq

/-- A validated, normalized manifest (query/bundle.py BundleManifestV1
after all validators ran). -/
structure Manifest where
  bundle_version : BundleVersion
  domain : String
  created_at : Int
  bundle_id : String
  entities : Option FileRef
  relationships : Option FileRef
  documents : Option FileRef
deriving DecidableEq

/-- Validation of a structured file reference field, when present. -/
def validateOptRef : Option RawFileRef → Except ManifestErr (Option FileRef)
  | none => .ok none
  | some r => (mkFileRef r.path r.format).map some

/-- Format inference for bare path strings in _normalize_file_refs:
Python str.endswith at the code-point level. -/
def inferFormat (path : String) : BundleFormat :=
  if startsList ".jsonl".data.reverse path.data.reverse then .jsonl else .json

/-- One leg of BundleManifestV1._normalize_file_refs: keep the structured
reference when present; otherwise promote a truthy bare path string
(constructing the FileRef runs its path validator); an absent or empty
string leaves the reference absent. -/
def normalizeFileRef (structured : Option FileRef) (pathStr : Option String) :
    Except ManifestErr (Option FileRef) :=
  match structured with
  | some fr => .ok (some fr)
  | none =>
      match pathStr with
      | some s => if s.isEmpty then .ok none else (mkFileRef s (inferFormat s)).map some
      | none => .ok none

/-- BundleManifestV1 validation end to end: nested FileRef validators,
the domain validator, then the _normalize_file_refs model validator. -/
def mkManifest (raw : RawManifest) : Except ManifestErr Manifest := do
  let ents ← validateOptRef raw.entities
  let rels ← validateOptRef raw.relationships
  let docs ← validateOptRef raw.documents
  let dtrim := pyStrip raw.domain
  if dtrim.isEmpty then
    Except.error .emptyDomain
  else
    let ents ← normalizeFileRef ents raw.entities_file
    let rels ← normalizeFileRef rels raw.relationships_file
    let docs ← normalizeFileRef docs raw.documents_file
    Except.ok
      { bundle_version := raw.bundle_version
        domain := dtrim
        created_at := raw.created_at
        bundle_id := raw.bundle_id
        entities := ents
        relationships := rels
        documents := docs }

/-- Entity table row with the columns the query layer filters on
(storage/models/entity.py). The confidence, synonyms and properties
payload columns appear in no WHERE clause of the embedded queries and
are not modelled. -/
structure Entity where
  entity_id : String
  entity_type : String
  name : Option String
  status : Option String
  source : Option String
  usage_count : Option Int
deriving DecidableEq

/-- Relationship table row (storage/models/relationship.py): a surrogate
primary key standing for the uuid4 default, and the triple columns. The
confidence, source_documents and properties payload columns appear in no
WHERE clause of the embedded queries and are not modelled. -/
structure Relationship where
  id : Nat
  subject_id : String
  predicate : String
  object_id : String
deriving DecidableEq

/-- One optional string filter applied the way the Python does it: the
guard is truthiness, so None and the empty string both leave the
statement unfiltered. -/
def applyFilter {α : Type} (v : Option String) (pred : String → α → Bool)
    (rows : List α) : List α :=
  match v with
  | some s => if s.isEmpty then rows else rows.filter (pred s)
  | none => rows

/-- The column.ilike of the queries, with the pattern wrapped in percent
signs: case-insensitive substring match. ASCII case folding, matching
the SQLite LIKE semantics; patterns are taken free of LIKE
metacharacters, which no spec scenario or test uses. -/
def ilikeContains (col pat : String) : Bool :=
  containsSub (pat.data.map Char.toLower) (col.data.map Char.toLower)

/-- Optional filter parameters of get_entities and count_entities. -/
structure EntityFilter where
  entity_type : Option String
  name : Option String
  name_contains : Option String
  source : Option String
  status : Option String
deriving DecidableEq

/-- The all-absent filter (every keyword argument left at None). -/
def noEntityFilter : EntityFilter :=
  ⟨none, none, none, none, none⟩

/-- The WHERE chain shared by SQLiteStorage.get_entities and
count_entities, in source order: entity_type, name, name_contains,
source, status. SQL equality on a nullable column excludes NULL, hence
the comparisons against some values. -/
def entitiesWhere (rows : List Entity) (f : EntityFilter) : List Entity :=
  let r := rows
  let r := applyFilter f.entity_type (fun v e => e.entity_type == v) r
  let r := applyFilter f.name (fun v e => e.name == some v) r
  let r := applyFilter f.name_contains
    (fun v e =>
      match e.name with
      | some n => ilikeContains n v
      | none => false) r
  let r := applyFilter f.source (fun v e => e.source == some v) r
  let r := applyFilter f.status (fun v e => e.status == some v) r
  r

/-- SQLiteStorage.get_entities: WHERE chain, then OFFSET, then LIMIT
(SQL applies the offset before the limit regardless of build order). -/
def get_entities (rows : List Entity) (limit offset : Nat) (f : EntityFilter) :
    List Entity :=
  ((entitiesWhere rows f).drop offset).take limit

/-- SQLiteStorage.count_entities: count over the same WHERE chain; the
function has no limit or offset parameters. -/
def count_entities (rows : List Entity) (f : EntityFilter) : Nat :=
  (entitiesWhere rows f).length

/-- Optional filter parameters of find_relationships and
count_relationships. -/
structure RelFilter where
  subject_id : Option String
  predicate : Option String
  object_id : Option String
deriving DecidableEq

/-- The all-absent relationship filter. -/
def noRelFilter : RelFilter :=
  ⟨none, none, none⟩

/-- The WHERE chain shared by find_relationships and
count_relationships, in source order. -/
def relsWhere (rows : List Relationship) (f : RelFilter) : List Relationship :=
  let r := rows
  let r := applyFilter f.subject_id (fun v x => x.subject_id == v) r
  let r := applyFilter f.predicate (fun v x => x.predicate == v) r
  let r := applyFilter f.object_id (fun v x => x.object_id == v) r
  r

/-- SQLiteStorage.find_relationships: limit and offset are each attached
only when truthy, so None and 0 both leave that clause off; when both
are attached SQL applies the offset before the limit. -/
def find_relationships (rows : List Relationship) (f : RelFilter)
    (limit offset : Option Nat) : List Relationship :=
  let r := relsWhere rows f
  let r :=
    match offset with
    | some o => if o == 0 then r else r.drop o
    | none => r
  match limit with
  | some l => if l == 0 then r else r.take l
  | none => r

/-- SQLiteStorage.count_relationships. -/
def count_relationships (rows : List Relationship) (f : RelFilter) : Nat :=
  (relsWhere rows f).length

/-- PostgresStorage.get_entities: the signature has only limit and
offset — no filter parameters exist, so every stored row is listed. -/
def postgres_get_entities (rows : List Entity) (limit offset : Nat) : List Entity :=
  (rows.drop offset).take limit

/-- PostgresStorage.find_relationships: same WHERE chain as the SQLite
backend but no offset parameter; limit attached only when truthy. -/
def postgres_find_relationships (rows : List Relationship) (f : RelFilter)
    (limit : Option Nat) : List Relationship :=
  let r := relsWhere rows f
  match limit with
  | some l => if l == 0 then r else r.take l
  | none => r

/-- One line of a jsonl data file, as far as the loader can observe it:
either json.loads produced a row object, or the line is malformed and
json.loads raises. -/
inductive Line where
  | ok (d : Dict)
  | bad

/-- Ledger row (storage/models/bundle.py Bundle). -/
structure BundleRec where
  bundle_id : String
  domain : String
  created_at : Int
  bundle_version : String
deriving DecidableEq

/-- The committed database state the loader works against: the Entity
table (rows keyed by their entity_id value), the Relationship table
(surrogate primary key standing for the uuid4 default, with the row),
the uuid counter, and the Bundle ledger table. -/
structure Store where
  entities : List Dict
  relationships : List (Nat × Dict)
  nextId : Nat
  bundles : List BundleRec

/-- The store holding no rows at all. -/
def emptyStore : Store :=
  ⟨[], [], 0, []⟩

/-- Exceptions a load can raise, by stage: missingFileRef models the
AttributeError on manifest.entities.path when the reference is absent,
fileMissing the FileNotFoundError from open, rowError a json.loads
JSONDecodeError or a normalization failure on a line, integrityError a
constraint violation detected when the session flushes at commit. -/
inductive LoadErr where
  | missingFileRef
  | fileMissing
  | rowError
  | integrityError
deriving DecidableEq

/-- Outcome of a load_bundle call: the early-return skip, a committed
load, or a raised exception. -/
inductive LoadResult where
  | skipped
  | loaded
  | failed (e : LoadErr)
deriving DecidableEq

/-- SQLiteStorage.is_bundle_loaded: primary-key lookup in the ledger. -/
def is_bundle_loaded (s : Store) (bid : String) : Bool :=
  s.bundles.any (fun b => b.bundle_id == bid)

/-- SQLiteStorage.record_bundle: the ledger row built from the manifest. -/
def mkBundleRec (m : Manifest) : BundleRec :=
  ⟨m.bundle_id, m.domain, m.created_at, getVersionStr m.bundle_version⟩

/-- session.merge(Entity(**row)): merge keys on the primary key
entity_id, so an existing row with the same entity_id value is replaced
and any other row is inserted. A row without an entity_id has primary
key None, which merge treats as a new instance. -/
def mergeEntityRow (table : List Dict) (row : Dict) : List Dict :=
  match dlookup row "entity_id" with
  | some v =>
      if table.any (fun r => dlookup r "entity_id" == some v) then
        table.map (fun r => if dlookup r "entity_id" == some v then row else r)
      else table ++ [row]
  | none => table ++ [row]

/-- The entity-file loop of load_bundle: parse each line, normalize,
merge; the first raising line aborts the whole loop. -/
def processEntityLines (table : List Dict) : List Line → Except LoadErr (List Dict)
  | [] => .ok table
  | .bad :: _ => .error .rowError
  | .ok d :: rest =>
      match normalize_entity d with
      | some nd => processEntityLines (mergeEntityRow table nd) rest
      | none => .error .rowError

/-- The relationship-file loop of load_bundle: session.merge on a
Relationship whose primary key is a fresh uuid4 never matches an
existing row, so every row is a pending insert with a fresh key. -/
def processRelLines (table : List (Nat × Dict)) (nid : Nat) :
    List Line → Except LoadErr (List (Nat × Dict) × Nat)
  | [] => .ok (table, nid)
  | .bad :: _ => .error .rowError
  | .ok d :: rest =>
      match normalize_relationship d with
      | some nd => processRelLines (table ++ [(nid, nd)]) (nid + 1) rest
      | none => .error .rowError

/-- Column equality on the unique triple (subject_id, object_id,
predicate) of the Relationship table constraint uq_relationship. -/
def tripleEq (a b : Dict) : Bool :=
  dlookup a "subject_id" == dlookup b "subject_id" &&
  dlookup a "predicate" == dlookup b "predicate" &&
  dlookup a "object_id" == dlookup b "object_id"

/-- No two rows of the Relationship table share their triple. -/
def triplesDistinct : List (Nat × Dict) → Bool
  | [] => true
  | r :: rest => rest.all (fun r2 => !tripleEq r.2 r2.2) && triplesDistinct rest

/-- A NOT NULL column holds a present, non-null value. -/
def colPresent (r : Dict) (k : String) : Bool :=
  match dlookup r k with
  | some v => !(v == JVal.null)
  | none => false

/-- The NOT NULL columns of a relationship row. -/
def relColsOk (r : Dict) : Bool :=
  colPresent r "subject_id" && colPresent r "predicate" && colPresent r "object_id"

/-- Entity table constraints: primary key present, non-null, unique. -/
def entityKeysOk : List Dict → Bool
  | [] => true
  | r :: rest =>
      colPresent r "entity_id" &&
      rest.all (fun r2 => !(dlookup r2 "entity_id" == dlookup r "entity_id")) &&
      entityKeysOk rest

/-- Ledger table constraint: bundle_id is the primary key. -/
def bundleIdsDistinct : List BundleRec → Bool
  | [] => true
  | b :: rest => rest.all (fun b2 => !(b2.bundle_id == b.bundle_id)) && bundleIdsDistinct rest

/-- The constraint check the flush performs at commit. A committed
database always satisfies its schema constraints, so validating the
whole table set is equivalent to checking the pending changes. -/
def storeConstraintsOk (s : Store) : Bool :=
  entityKeysOk s.entities &&
  s.relationships.all (fun r => relColsOk r.2) &&
  triplesDistinct s.relationships &&
  bundleIdsDistinct s.bundles

/-- session.commit: flush the pending table state; a constraint
violation raises and leaves the committed state unchanged. -/
def commitStore (s2 : Store) : Except LoadErr Store :=
  if storeConstraintsOk s2 then .ok s2 else .error .integrityError

/-- The body of SQLiteStorage.load_bundle past the idempotency guard:
resolve and stream the entities file, then the relationships file, add
the ledger row, and commit. The filesystem is a map from paths inside
the bundle directory to parsed line lists; an unmapped path is a
missing file. Any error leaves the session uncommitted. -/
def load_bundle_core (m : Manifest) (fs : String → Option (List Line)) (s : Store) :
    Except LoadErr Store :=
  match m.entities with
  | none => .error .missingFileRef
  | some eref =>
    match fs eref.path with
    | none => .error .fileMissing
    | some elines =>
      match processEntityLines s.entities elines with
      | .error e => .error e
      | .ok etable =>
        match m.relationships with
        | none => .error .missingFileRef
        | some rref =>
          match fs rref.path with
          | none => .error .fileMissing
          | some rlines =>
            match processRelLines s.relationships s.nextId rlines with
            | .error e => .error e
            | .ok rpair =>
              commitStore
                { entities := etable
                  relationships := rpair.1
                  nextId := rpair.2
                  bundles := s.bundles ++ [mkBundleRec m] }

/-- SQLiteStorage.load_bundle: skip when the ledger already records the
bundle_id, otherwise run the body; an uncommitted (failed) session
leaves the committed store unchanged. -/
def load_bundle (m : Manifest) (fs : String → Option (List Line)) (s : Store) :
    LoadResult × Store :=
  if is_bundle_loaded s m.bundle_id then (.skipped, s)
  else
    match load_bundle_core m fs s with
    | .ok s2 => (.loaded, s2)
    | .error e => (.failed e, s)

/-- The force-reload purge in bundle_loader._do_load: delete every
Bundle, Relationship and Entity row and commit. -/
def purgeAll (s : Store) : Store :=
  { entities := [], relationships := [], nextId := s.nextId, bundles := [] }

/-- bundle_loader._do_load after manifest parsing: skip when loaded and
not forced; purge first when forced; then hand off to load_bundle,
which repeats its own ledger check. -/
def do_load (force : Bool) (m : Manifest) (fs : String → Option (List Line))
    (s : Store) : LoadResult × Store :=
  if is_bundle_loaded s m.bundle_id && !force then (.skipped, s)
  else
    let s2 := if force then purgeAll s else s
    load_bundle m fs s2

/-- Python truthiness of an optional string field: None and the empty
string are falsy. -/
def strOptTruthy : Option String → Bool
  | some s => !s.isEmpty
  | none => false

/-- The specification reading of the entity filters: the conjunction of
the individual predicates, each active exactly when the parameter is
truthy (exact entity_type, exact name, case-insensitive substring on
name, exact source, exact status). -/
def entityMatches (f : EntityFilter) (e : Entity) : Bool :=
  (match f.entity_type with
   | some v => v.isEmpty || e.entity_type == v
   | none => true) &&
  ((match f.name with
    | some v => v.isEmpty || e.name == some v
    | none => true) &&
   ((match f.name_contains with
     | some v =>
        v.isEmpty ||
          (match e.name with
           | some n => ilikeContains n v
           | none => false)
     | none => true) &&
    ((match f.source with
      | some v => v.isEmpty || e.source == some v
      | none => true) &&
     (match f.status with
      | some v => v.isEmpty || e.status == some v
      | none => true))))

/-- Keys of a dict are pairwise distinct, the invariant every dict
decoded by json.loads and every dict the normalizers build satisfies. -/
def keysNodup (d : Dict) : Prop :=
  (d.map Prod.fst).Nodup

/-- Sample rows from the repository test fixtures (conftest.py), on the
filtered columns: two character entities and one location entity. -/
def sampleEntities : List Entity :=
  [⟨"test:entity:1", "character", some "Test Character 1", some "canonical", some "test", some 10⟩,
   ⟨"test:entity:2", "character", some "Test Character 2", some "canonical", some "test", some 5⟩,
   ⟨"test:entity:3", "location", some "Test Location", some "canonical", some "test", some 20⟩]

/-- The filter the backend test applies: entity_type equal to
character, everything else absent. -/
def characterFilter : EntityFilter :=
  ⟨some "character", none, none, none, none⟩

/-- The stored names of the nameContains scenario in the specification. -/
def scenarioEntities : List Entity :=
  [⟨"e1", "t", some "Character", none, none, none⟩,
   ⟨"e2", "t", some "Charlie", none, none, none⟩,
   ⟨"e3", "t", some "Other", none, none, none⟩]

/-- The nameContains filter of that scenario. -/
def charContainsFilter : EntityFilter :=
  ⟨none, none, some "char", none, none⟩

/-- A raw manifest document carrying neither the structured nor the
bare-path form for entities, relationships or documents. -/
def rawManifestNoFiles : RawManifest :=
  ⟨.vstr "v1", "demo", 0, "b1", none, none, none, none, none, none⟩

/-- The canonical manifest that validating rawManifestNoFiles yields. -/
def manifestNoFiles : Manifest :=
  ⟨.vstr "v1", "demo", 0, "b1", none, none, none⟩

/-- A drive-letter, backslash-separated path: PurePosixPath sees one
relative component, so the FileRef validator admits it. -/
def drivePath : String :=
  "C:\\data\\x.jsonl"

/-- A raw manifest whose entities file is the drive-letter path and
whose relationships file is ordinary. -/
def rawManifestDrive : RawManifest :=
  ⟨.vstr "v1", "demo", 0, "b2", none, none, some drivePath, some "r.jsonl", none, none⟩

/-- The canonical manifest that validating rawManifestDrive yields: the
drive-letter path is admitted as the entities reference. -/
def manifestDrive : Manifest :=
  ⟨.vstr "v1", "demo", 0, "b2", some ⟨drivePath, .jsonl⟩, some ⟨"r.jsonl", .jsonl⟩, none⟩

/-- A manifest for the concrete load runs, with ordinary file refs. -/
def manifestEx : Manifest :=
  ⟨.vstr "v1", "test", 0, "b1", some ⟨"entities.jsonl", .jsonl⟩,
    some ⟨"relationships.jsonl", .jsonl⟩, none⟩

/-- One well-formed entity line. -/
def entityLineEx : Line :=
  .ok [("entity_id", JVal.str "x1"), ("entity_type", JVal.str "t"),
    ("name", JVal.str "X")]

/-- One well-formed relationship line, already in canonical naming. -/
def relLineEx : Line :=
  .ok [("subject_id", JVal.str "x1"), ("predicate", JVal.str "p"),
    ("object_id", JVal.str "x2")]

/-- A second relationship line with the same triple but a different
confidence payload. -/
def relLineDup : Line :=
  .ok [("subject_id", JVal.str "x1"), ("predicate", JVal.str "p"),
    ("object_id", JVal.str "x2"), ("confidence", JVal.num 1)]

/-- Bundle directory for a clean one-entity, one-relationship load. -/
def fsEx : String → Option (List Line) :=
  fun p =>
    if p = "entities.jsonl" then some [entityLineEx]
    else if p = "relationships.jsonl" then some [relLineEx]
    else none

/-- Bundle directory whose relationships file repeats a triple. -/
def fsDupTriple : String → Option (List Line) :=
  fun p =>
    if p = "entities.jsonl" then some [entityLineEx]
    else if p = "relationships.jsonl" then some [relLineEx, relLineDup]
    else none

/-- Bundle directory whose entities file has a malformed second line. -/
def fsBadLine : String → Option (List Line) :=
  fun p =>
    if p = "entities.jsonl" then some [entityLineEx, .bad]
    else if p = "relationships.jsonl" then some [relLineEx]
    else none

/-- The store after the clean load of manifestEx from fsEx. -/
def storeEx1 : Store :=
  { entities := [[("entity_id", JVal.str "x1"), ("entity_type", JVal.str "t"),
      ("name", JVal.str "X")]]
    relationships := [(0, [("subject_id", JVal.str "x1"), ("predicate", JVal.str "p"),
      ("object_id", JVal.str "x2")])]
    nextId := 1
    bundles := [⟨"b1", "test", 0, "v1"⟩] }

/-- An entity row whose auxiliary map collides with a direct properties
key and carries a liftable status key. -/
def entityRowClash : Dict :=
  [("entity_id", JVal.str "e1"),
   ("properties", JVal.obj [("color", JVal.str "red")]),
   ("metadata", JVal.obj [("color", JVal.str "blue"), ("status", JVal.str "active")])]

/-- What normalizing entityRowClash yields. -/
def entityRowClashResult : Dict :=
  [("entity_id", JVal.str "e1"),
   ("properties", JVal.obj [("color", JVal.str "blue"), ("status", JVal.str "active")]),
   ("status", JVal.str "active")]

/-- A relationship row in producer naming with a producer bookkeeping
identifier. -/
def relRowProducer : Dict :=
  [("source_entity_id", JVal.str "x1"), ("target_entity_id", JVal.str "x2"),
   ("predicate", JVal.str "p"), ("relationship_id", JVal.str "r9")]

end KG

namespace KG

theorem applyFilter_eq_filter {α : Type} (o : Option String)
    (pred : String → α → Bool) (rows : List α) :
    applyFilter o pred rows =
      rows.filter (fun a =>
        match o with
        | some v => v.isEmpty || pred v a
        | none => true) := by
  cases o with
  | none => simp [applyFilter]
  | some v =>
      by_cases h : v.isEmpty <;> simp [applyFilter, h]

theorem entitiesWhere_eq_filter (rows : List Entity) (f : EntityFilter) :
    entitiesWhere rows f = rows.filter (entityMatches f) := by
  simp only [entitiesWhere]
  rw [applyFilter_eq_filter, applyFilter_eq_filter, applyFilter_eq_filter,
    applyFilter_eq_filter, applyFilter_eq_filter]
  simp only [List.filter_filter]
  apply List.filter_congr
  intro e _
  unfold entityMatches
  cases f.entity_type <;> cases f.name <;> cases f.name_contains <;>
    cases f.source <;> cases f.status <;>
      simp [Bool.and_comm, Bool.and_left_comm, Bool.and_assoc]

theorem relsWhere_eq_filter (rows : List Relationship) (f : RelFilter) :
    relsWhere rows f =
      rows.filter (fun x =>
        (match f.subject_id with
         | some v => v.isEmpty || x.subject_id == v
         | none => true) &&
        ((match f.predicate with
          | some v => v.isEmpty || x.predicate == v
          | none => true) &&
         (match f.object_id with
          | some v => v.isEmpty || x.object_id == v
          | none => true))) := by
  simp only [relsWhere]
  rw [applyFilter_eq_filter, applyFilter_eq_filter, applyFilter_eq_filter]
  simp only [List.filter_filter]
  apply List.filter_congr
  intro x _
  cases f.subject_id <;> cases f.predicate <;> cases f.object_id <;>
    simp [Bool.and_comm, Bool.and_left_comm, Bool.and_assoc]

/-- Claim C10: passing the empty string as any of the eight filter
parameters of the SQLite entity listing/counting and relationship
finding/counting operations behaves exactly as if the filter were
absent, because the guard on each WHERE clause is Python truthiness. -/
theorem claim10_empty_string_filters :
    (∀ rows lim off (f : EntityFilter),
      get_entities rows lim off { f with entity_type := some "" } =
        get_entities rows lim off { f with entity_type := none } ∧
      get_entities rows lim off { f with name := some "" } =
        get_entities rows lim off { f with name := none } ∧
      get_entities rows lim off { f with name_contains := some "" } =
        get_entities rows lim off { f with name_contains := none } ∧
      get_entities rows lim off { f with source := some "" } =
        get_entities rows lim off { f with source := none } ∧
      get_entities rows lim off { f with status := some "" } =
        get_entities rows lim off { f with status := none }) ∧
    (∀ rows (f : EntityFilter),
      count_entities rows { f with entity_type := some "" } =
        count_entities rows { f with entity_type := none } ∧
      count_entities rows { f with name := some "" } =
        count_entities rows { f with name := none } ∧
      count_entities rows { f with name_contains := some "" } =
        count_entities rows { f with name_contains := none } ∧
      count_entities rows { f with source := some "" } =
        count_entities rows { f with source := none } ∧
      count_entities rows { f with status := some "" } =
        count_entities rows { f with status := none }) ∧
    (∀ rows lim off (f : RelFilter),
      find_relationships rows { f with subject_id := some "" } lim off =
        find_relationships rows { f with subject_id := none } lim off ∧
      find_relationships rows { f with predicate := some "" } lim off =
        find_relationships rows { f with predicate := none } lim off ∧
      find_relationships rows { f with object_id := some "" } lim off =
        find_relationships rows { f with object_id := none } lim off) ∧
    (∀ rows (f : RelFilter),
      count_relationships rows { f with subject_id := some "" } =
        count_relationships rows { f with subject_id := none } ∧
      count_relationships rows { f with predicate := some "" } =
        count_relationships rows { f with predicate := none } ∧
      count_relationships rows { f with object_id := some "" } =
        count_relationships rows { f with object_id := none }) := by
  refine ⟨fun rows lim off f => ⟨rfl, rfl, rfl, rfl, rfl⟩,
    fun rows f => ⟨rfl, rfl, rfl, rfl, rfl⟩,
    fun rows lim off f => ⟨rfl, rfl, rfl⟩,
    fun rows f => ⟨rfl, rfl, rfl⟩⟩

/-- Claim C5 is a code bug: the storage interface and the repository
test suite require the Postgres backend to honor the same entity
filters as the SQLite backend, but PostgresStorage.get_entities takes
no filter parameters at all. On the fixture dataset of the backend
tests, filtering by entity_type character returns two rows through the
SQLite query and all three rows through the Postgres query. -/
theorem claim5_divergence :
    (get_entities sampleEntities 10 0 characterFilter).length = 2 ∧
    (postgres_get_entities sampleEntities 10 0).length = 3 ∧
    postgres_get_entities sampleEntities 10 0 ≠
      get_entities sampleEntities 10 0 characterFilter := by
  refine ⟨rfl, rfl, ?_⟩
  decide

/-- Claim C9: the entity count is the size of the set matching the AND
of the active filter predicates (nameContains as a case-insensitive
substring), computed with no limit or offset parameter at all, while
the listing applies offset then limit strictly after the same
filtering; on stored names Character, Charlie, Other the filter
nameContains char matches exactly the first two and counts 2. -/
theorem claim9_count_and_pagination :
    (∀ rows f, count_entities rows f = (rows.filter (entityMatches f)).length) ∧
    (∀ rows lim off f,
      get_entities rows lim off f =
        ((rows.filter (entityMatches f)).drop off).take lim) ∧
    count_entities scenarioEntities charContainsFilter = 2 ∧
    (∀ lim, 2 ≤ lim →
      get_entities scenarioEntities lim 0 charContainsFilter =
        [⟨"e1", "t", some "Character", none, none, none⟩,
         ⟨"e2", "t", some "Charlie", none, none, none⟩]) := by
  refine ⟨?_, ?_, by decide, ?_⟩
  · intro rows f
    simp [count_entities, entitiesWhere_eq_filter]
  · intro rows lim off f
    simp [get_entities, entitiesWhere_eq_filter]
  · intro lim hlim
    have h2 : entitiesWhere scenarioEntities charContainsFilter =
        [⟨"e1", "t", some "Character", none, none, none⟩,
         ⟨"e2", "t", some "Charlie", none, none, none⟩] := by
      decide
    simp only [get_entities, h2, List.drop_zero]
    exact List.take_of_length_le (by simpa using hlim)

/-- Claim C4 counterexample: a raw manifest carrying neither the
structured nor the bare path-string form for the entities and
relationships files validates successfully with both canonical
references absent; no MissingRequiredFile failure exists. -/
theorem claim4_counterexample :
    mkManifest rawManifestNoFiles = Except.ok manifestNoFiles ∧
    manifestNoFiles.entities = none ∧ manifestNoFiles.relationships = none :=
  ⟨rfl, rfl, rfl⟩

/-- Claim C4 amended: when neither the structured nor the truthy bare
path-string form is present for the entities (relationships) file,
manifest normalization does not fail on their account; whenever it
succeeds, it leaves the corresponding canonical reference absent. -/
theorem claim4_amended :
    ∀ (raw : RawManifest) (m : Manifest),
      raw.entities = none → strOptTruthy raw.entities_file = false →
      raw.relationships = none → strOptTruthy raw.relationships_file = false →
      mkManifest raw = Except.ok m →
      m.entities = none ∧ m.relationships = none := by
  intro raw m hE hEf hR hRf hm
  have hEf2 : normalizeFileRef none raw.entities_file = Except.ok none := by
    cases hef : raw.entities_file with
    | none => rfl
    | some t =>
        rw [hef] at hEf
        simp only [strOptTruthy, Bool.not_eq_false'] at hEf
        simp [normalizeFileRef, hEf]
  have hRf2 : normalizeFileRef none raw.relationships_file = Except.ok none := by
    cases href : raw.relationships_file with
    | none => rfl
    | some t =>
        rw [href] at hRf
        simp only [strOptTruthy, Bool.not_eq_false'] at hRf
        simp [normalizeFileRef, hRf]
  unfold mkManifest at hm
  rw [hE, hR] at hm
  simp only [validateOptRef, bind, Except.bind] at hm
  rw [hEf2, hRf2] at hm
  repeat' split at hm
  all_goals simp_all
  all_goals rw [← hm]
  all_goals exact ⟨rfl, rfl⟩

/-- Witness for claim C4 amended at the concrete no-files manifest. -/
theorem claim4_witness :
    manifestNoFiles.entities = none ∧ manifestNoFiles.relationships = none :=
  claim4_amended rawManifestNoFiles manifestNoFiles rfl rfl rfl rfl rfl

theorem splitOnPred_replaceChar (l : List Char) :
    splitOnPred (fun c => c == '/') (replaceChar '\\' '/' l) =
      splitOnPred isPathSep l := by
  induction l with
  | nil => rfl
  | cons c t ih =>
      by_cases h1 : c = '\\'
      · simp [replaceChar, splitOnPred, h1, isPathSep] at ih ⊢
        exact ih
      · by_cases h2 : c = '/'
        · simp [replaceChar, splitOnPred, h1, h2, isPathSep] at ih ⊢
          exact ih
        · simp [replaceChar, splitOnPred, h1, h2, isPathSep] at ih ⊢
          rw [ih]

theorem validateOptRef_ok (o : Option RawFileRef) (fr : FileRef)
    (h : validateOptRef o = Except.ok (some fr)) : fileRefPathOk fr.path = true := by
  cases o with
  | none => simp [validateOptRef] at h
  | some r =>
      simp only [validateOptRef, mkFileRef] at h
      split at h
      · simp only [Except.map] at h
        cases h
        assumption
      · simp [Except.map] at h

theorem normalizeFileRef_ok (st : Option FileRef) (pf : Option String) (fr : FileRef)
    (hst : ∀ g, st = some g → fileRefPathOk g.path = true)
    (h : normalizeFileRef st pf = Except.ok (some fr)) : fileRefPathOk fr.path = true := by
  cases st with
  | some g =>
      simp only [normalizeFileRef] at h
      cases h
      exact hst fr rfl
  | none =>
      cases pf with
      | none => simp [normalizeFileRef] at h
      | some t =>
          simp only [normalizeFileRef, mkFileRef] at h
          split at h
          · simp at h
          · split at h
            · simp only [Except.map] at h
              cases h
              assumption
            · simp [Except.map] at h

theorem mkManifest_refs_ok (raw : RawManifest) (m : Manifest)
    (hm : mkManifest raw = Except.ok m) :
    (∀ fr, m.entities = some fr → fileRefPathOk fr.path = true) ∧
    (∀ fr, m.relationships = some fr → fileRefPathOk fr.path = true) ∧
    (∀ fr, m.documents = some fr → fileRefPathOk fr.path = true) := by
  unfold mkManifest at hm
  cases hE : validateOptRef raw.entities with
  | error e => rw [hE] at hm; simp [bind, Except.bind] at hm
  | ok ents =>
  rw [hE] at hm
  cases hR : validateOptRef raw.relationships with
  | error e => rw [hR] at hm; simp [bind, Except.bind] at hm
  | ok rels =>
  rw [hR] at hm
  cases hD : validateOptRef raw.documents with
  | error e => rw [hD] at hm; simp [bind, Except.bind] at hm
  | ok docs =>
  rw [hD] at hm
  simp only [bind, Except.bind] at hm
  split at hm
  · simp at hm
  · cases hE2 : normalizeFileRef ents raw.entities_file with
    | error e => rw [hE2] at hm; simp at hm
    | ok ents2 =>
    rw [hE2] at hm
    cases hR2 : normalizeFileRef rels raw.relationships_file with
    | error e => rw [hR2] at hm; simp at hm
    | ok rels2 =>
    rw [hR2] at hm
    cases hD2 : normalizeFileRef docs raw.documents_file with
    | error e => rw [hD2] at hm; simp at hm
    | ok docs2 =>
    rw [hD2] at hm
    simp only [Except.ok.injEq] at hm
    subst hm
    refine ⟨?_, ?_, ?_⟩
    · intro fr hfr
      simp only at hfr
      subst hfr
      exact normalizeFileRef_ok ents raw.entities_file fr
        (fun g hg => validateOptRef_ok raw.entities g (hg ▸ hE)) hE2
    · intro fr hfr
      simp only at hfr
      subst hfr
      exact normalizeFileRef_ok rels raw.relationships_file fr
        (fun g hg => validateOptRef_ok raw.relationships g (hg ▸ hR)) hR2
    · intro fr hfr
      simp only at hfr
      subst hfr
      exact normalizeFileRef_ok docs raw.documents_file fr
        (fun g hg => validateOptRef_ok raw.documents g (hg ▸ hD)) hD2

/-- Claim C7 counterexample: the drive-letter backslash path is
rejected by validate_relative_path yet admitted by the FileRef
validator and hence into a normalized manifest, refuting the final
conjunct of the claim. -/
theorem claim7_counterexample :
    validate_relative_path drivePath = none ∧
    fileRefPathOk drivePath = true ∧
    mkManifest rawManifestDrive = Except.ok manifestDrive ∧
    manifestDrive.entities = some ⟨drivePath, .jsonl⟩ :=
  ⟨rfl, rfl, rfl, rfl⟩

/-- Claim C7 amended: validate_relative_path accepts exactly the
strings that trim to a non-empty path with no leading slash, no
drive-letter prefix and no dot-dot segment under either separator, and
returns the trimmed path unchanged; manifest file references, however,
are only guaranteed to pass the weaker posix FileRef check, which this
counterexample shows does not imply the predicate. -/
theorem claim7_amended :
    (∀ s, (validate_relative_path s).isSome = claimAccepts s) ∧
    (∀ s p, validate_relative_path s = some p → p = pyStrip s) ∧
    (∀ raw m fr, mkManifest raw = Except.ok m →
      m.entities = some fr ∨ m.relationships = some fr ∨ m.documents = some fr →
      fileRefPathOk fr.path = true) := by
  refine ⟨?_, ?_, ?_⟩
  · intro s
    unfold validate_relative_path claimAccepts
    simp only [hasDotDotSegment, splitOnPred_replaceChar]
    by_cases h1 : (pyStrip s).isEmpty
    · simp [h1]
    · by_cases h2 : headIsSlash (pyStrip s).data
      · simp [h1, h2]
      · by_cases h3 : secondCharIsColon (pyStrip s).data
        · simp [h1, h2, h3]
        · by_cases h4 :
            (splitOnPred isPathSep (pyStrip s).data).any (fun seg => seg == ['.', '.'])
          · simp [h1, h2, h3, h4]
          · simp [h1, h2, h3, h4]
  · intro s p hp
    unfold validate_relative_path at hp
    simp_all
  · intro raw m fr hm hfr
    rcases hfr with h | h | h
    · exact (mkManifest_refs_ok raw m hm).1 fr h
    · exact (mkManifest_refs_ok raw m hm).2.1 fr h
    · exact (mkManifest_refs_ok raw m hm).2.2 fr h

/-- Witness for claim C7 amended, at the drive-letter manifest. -/
theorem claim7_witness : fileRefPathOk drivePath = true :=
  claim7_amended.2.2 rawManifestDrive manifestDrive ⟨drivePath, .jsonl⟩ rfl (Or.inl rfl)

theorem commitStore_ok (t s2 : Store) (h : commitStore t = Except.ok s2) :
    s2 = t ∧ storeConstraintsOk s2 = true := by
  unfold commitStore at h
  split at h
  · cases h
    constructor
    · rfl
    · assumption
  · simp at h

theorem load_bundle_core_ok (m : Manifest) (fs : String → Option (List Line))
    (s s2 : Store) (h : load_bundle_core m fs s = Except.ok s2) :
    s2.bundles = s.bundles ++ [mkBundleRec m] ∧ storeConstraintsOk s2 = true := by
  unfold load_bundle_core at h
  repeat' split at h
  all_goals try (exact absurd h (by simp))
  obtain ⟨h2, h3⟩ := commitStore_ok _ _ h
  subst h2
  exact ⟨rfl, h3⟩

theorem load_bundle_loaded_recorded (m : Manifest) (fs : String → Option (List Line))
    (s s2 : Store) (h : load_bundle m fs s = (.loaded, s2)) :
    is_bundle_loaded s2 m.bundle_id = true := by
  unfold load_bundle at h
  split at h
  · simp at h
  · cases hc : load_bundle_core m fs s with
    | error e => rw [hc] at h; simp at h
    | ok t =>
        rw [hc] at h
        simp only [Prod.mk.injEq] at h
        rw [← h.2]
        have hb := (load_bundle_core_ok m fs s t hc).1
        simp [is_bundle_loaded, hb, mkBundleRec]

/-- Claim C1: when the ledger already records the manifest bundle_id,
load_bundle (and _do_load without the force flag) returns the skip
outcome with the store untouched; hence a bundle loaded once is skipped
on the second call and every table, and so every row count, is left
exactly as after the first call. -/
theorem claim1_idempotent_skip :
    (∀ m fs s, is_bundle_loaded s m.bundle_id = true →
      load_bundle m fs s = (.skipped, s)) ∧
    (∀ m fs s, is_bundle_loaded s m.bundle_id = true →
      do_load false m fs s = (.skipped, s)) ∧
    (∀ m fs s s2, load_bundle m fs s = (.loaded, s2) →
      load_bundle m fs s2 = (.skipped, s2)) := by
  refine ⟨?_, ?_, ?_⟩
  · intro m fs s h
    simp [load_bundle, h]
  · intro m fs s h
    simp [do_load, h]
  · intro m fs s s2 h
    have hb := load_bundle_loaded_recorded m fs s s2 h
    simp [load_bundle, hb]

/-- Witness for claim C1: the clean one-entity, one-relationship load
succeeds once, and repeating it is skipped with the store unchanged. -/
theorem claim1_witness :
    load_bundle manifestEx fsEx storeEx1 = (.skipped, storeEx1) :=
  claim1_idempotent_skip.2.2 manifestEx fsEx emptyStore storeEx1 (by rfl)

/-- Claim C2 counterexample: a relationships file repeating the same
(subject, predicate, object) triple does not overwrite the earlier row;
both rows are inserted under fresh surrogate keys and the commit fails
the uq_relationship unique constraint, so the load raises and the
committed store is unchanged (no relationship stored at all). -/
theorem claim2_counterexample :
    load_bundle manifestEx fsDupTriple emptyStore =
      (.failed .integrityError, emptyStore) ∧
    emptyStore.relationships = [] :=
  ⟨rfl, rfl⟩

/-- Claim C2 amended: the store never holds two relationships with the
same triple, but not by overwrite: the unique constraint makes a load
whose rows repeat a triple fail at commit, leaving the committed store
unchanged; after every successful load the stored triples are pairwise
distinct. -/
theorem claim2_amended :
    (∀ m fs s s2, load_bundle m fs s = (.loaded, s2) →
      triplesDistinct s2.relationships = true) ∧
    (∀ m fs s r s2, load_bundle m fs s = (r, s2) → r = .loaded ∨ s2 = s) := by
  constructor
  · intro m fs s s2 h
    unfold load_bundle at h
    split at h
    · simp at h
    · cases hc : load_bundle_core m fs s with
      | error e => rw [hc] at h; simp at h
      | ok t =>
          rw [hc] at h
          simp only [Prod.mk.injEq] at h
          rw [← h.2]
          have hck := (load_bundle_core_ok m fs s t hc).2
          unfold storeConstraintsOk at hck
          simp only [Bool.and_eq_true] at hck
          exact hck.1.2
  · intro m fs s r s2 h
    unfold load_bundle at h
    split at h
    · right
      exact (Prod.mk.injEq _ _ _ _ ▸ h).2.symm
    · cases hc : load_bundle_core m fs s with
      | error e =>
          rw [hc] at h
          right
          exact (Prod.mk.injEq _ _ _ _ ▸ h).2.symm
      | ok t =>
          rw [hc] at h
          left
          exact ((Prod.mk.injEq _ _ _ _ ▸ h).1).symm

/-- Witness for claim C2 amended at the clean concrete load. -/
theorem claim2_witness : triplesDistinct storeEx1.relationships = true :=
  claim2_amended.1 manifestEx fsEx emptyStore storeEx1 (by rfl)

theorem processEntityLines_bad (ls : List Line) (t : List Dict)
    (h : Line.bad ∈ ls) : ∃ e, processEntityLines t ls = Except.error e := by
  induction ls generalizing t with
  | nil => cases h
  | cons hd rest ih =>
      cases hd with
      | bad => exact ⟨.rowError, rfl⟩
      | ok d =>
          have hrest : Line.bad ∈ rest := by
            cases h with
            | tail _ h2 => exact h2
          cases hn : normalize_entity d with
          | some nd =>
              obtain ⟨e, he⟩ := ih (mergeEntityRow t nd) hrest
              exact ⟨e, by simp only [processEntityLines, hn, he]⟩
          | none => exact ⟨.rowError, by simp only [processEntityLines, hn]⟩

/-- Claim C3 counterexample: a malformed line in the entities file is
not skipped; the load aborts with the raised parse error, no row is
committed, and no ledger entry is written. -/
theorem claim3_counterexample :
    load_bundle manifestEx fsBadLine emptyStore = (.failed .rowError, emptyStore) ∧
    emptyStore.bundles = [] :=
  ⟨rfl, rfl⟩

/-- Claim C3 amended: a data-file line that fails to parse aborts the
whole load: whenever the entities file of a not-yet-loaded bundle
contains a malformed line, load_bundle raises, the committed store is
unchanged and in particular no ledger entry is written. (Only the
separate document-asset loader skips malformed lines.) -/
theorem claim3_amended :
    ∀ m fs s eref elines, is_bundle_loaded s m.bundle_id = false →
      m.entities = some eref → fs eref.path = some elines → Line.bad ∈ elines →
      (load_bundle m fs s).2 = s ∧ ∃ e, (load_bundle m fs s).1 = .failed e := by
  intro m fs s eref elines hnl hE hEf hbad
  obtain ⟨e, he⟩ := processEntityLines_bad elines s.entities hbad
  have hcore : load_bundle_core m fs s = Except.error e := by
    unfold load_bundle_core
    simp only [hE, hEf, he]
  unfold load_bundle
  rw [hnl]
  simp only [Bool.false_eq_true, if_false]
  rw [hcore]
  exact ⟨rfl, e, rfl⟩

/-- Witness for claim C3 amended at the concrete malformed bundle. -/
theorem claim3_witness :
    (load_bundle manifestEx fsBadLine emptyStore).2 = emptyStore ∧
    ∃ e, (load_bundle manifestEx fsBadLine emptyStore).1 = .failed e :=
  claim3_amended manifestEx fsBadLine emptyStore ⟨"entities.jsonl", .jsonl⟩
    [entityLineEx, .bad] rfl rfl rfl (List.Mem.tail _ (List.Mem.head _))

theorem dlookup_dset_self (d : Dict) (k : String) (v : JVal) :
    dlookup (dset d k v) k = some v := by
  induction d with
  | nil => simp [dset, dlookup]
  | cons kv rest ih =>
      obtain ⟨k2, w⟩ := kv
      by_cases h : k2 = k
      · simp [dset, dlookup, h]
      · simp [dset, dlookup, h, ih]

theorem dlookup_dset_ne (d : Dict) (k k2 : String) (v : JVal) (h : k2 ≠ k) :
    dlookup (dset d k v) k2 = dlookup d k2 := by
  have hs : k ≠ k2 := Ne.symm h
  induction d with
  | nil => simp [dset, dlookup, hs]
  | cons kv rest ih =>
      obtain ⟨k3, w⟩ := kv
      by_cases h3 : k3 = k
      · subst h3
        simp [dset, dlookup, hs]
      · simp [dset, dlookup, h3, ih]

theorem dlookup_dpop_ne (d : Dict) (k k2 : String) (h : k2 ≠ k) :
    dlookup (dpop d k) k2 = dlookup d k2 := by
  have hs : k ≠ k2 := Ne.symm h
  induction d with
  | nil => simp [dpop, dlookup]
  | cons kv rest ih =>
      obtain ⟨k3, w⟩ := kv
      by_cases h3 : k3 = k
      · subst h3
        simp [dpop, dlookup, hs]
      · simp [dpop, dlookup, h3, ih]

theorem hasKey_iff_dlookup (d : Dict) (k : String) :
    hasKey d k = (dlookup d k).isSome := by
  induction d with
  | nil => rfl
  | cons kv rest ih =>
      obtain ⟨k2, w⟩ := kv
      by_cases h : k2 = k
      · simp [hasKey, dlookup, h]
      · simp [hasKey, dlookup, h, ← ih]

theorem hasKey_dset_ne (d : Dict) (k k2 : String) (v : JVal) (h : k2 ≠ k) :
    hasKey (dset d k v) k2 = hasKey d k2 := by
  rw [hasKey_iff_dlookup, hasKey_iff_dlookup, dlookup_dset_ne d k k2 v h]

theorem hasKey_dset_self (d : Dict) (k : String) (v : JVal) :
    hasKey (dset d k v) k = true := by
  rw [hasKey_iff_dlookup, dlookup_dset_self]
  rfl

theorem hasKey_dpop_ne (d : Dict) (k k2 : String) (h : k2 ≠ k) :
    hasKey (dpop d k) k2 = hasKey d k2 := by
  rw [hasKey_iff_dlookup, hasKey_iff_dlookup, dlookup_dpop_ne d k k2 h]

theorem dlookup_liftKeys_not_mem (ks : List String) (meta r : Dict) (k : String)
    (hk : k ∉ ks) : dlookup (liftKeys ks meta r) k = dlookup r k := by
  induction ks generalizing r with
  | nil => rfl
  | cons k1 rest ih =>
      simp only [List.mem_cons, not_or] at hk
      obtain ⟨hk1, hk2⟩ := hk
      simp only [liftKeys]
      rw [ih _ hk2]
      split
      · split
        · exact dlookup_dset_ne _ _ _ _ hk1
        · rfl
      · rfl

theorem dlookup_liftKeys_present (ks : List String) (meta r : Dict) (k : String)
    (hk : hasKey r k = true) : dlookup (liftKeys ks meta r) k = dlookup r k := by
  induction ks generalizing r with
  | nil => rfl
  | cons k1 rest ih =>
      simp only [liftKeys]
      by_cases h1 : k1 = k
      · subst h1
        have hcond : (hasKey meta k1 && !hasKey r k1) = false := by
          rw [hk]
          simp
        rw [hcond]
        simp only [Bool.false_eq_true, if_false]
        exact ih r hk
      · split
        · split
          · rename_i v hv
            rw [ih _ (by rw [hasKey_dset_ne _ _ _ _ (fun he => h1 he.symm)]; exact hk)]
            exact dlookup_dset_ne _ _ _ _ (fun he => h1 he.symm)
          · exact ih r hk
        · exact ih r hk

theorem liftKeys_lifts (ks : List String) (meta r : Dict) (k : String) (v : JVal)
    (hks : k ∈ ks) (hr : hasKey r k = false) (hm : dlookup meta k = some v) :
    dlookup (liftKeys ks meta r) k = some v := by
  induction ks generalizing r with
  | nil => cases hks
  | cons k1 rest ih =>
      simp only [liftKeys]
      by_cases h1 : k1 = k
      · subst h1
        have hkm : hasKey meta k1 = true := by
          rw [hasKey_iff_dlookup, hm]
          rfl
        rw [hkm, hr]
        simp only [Bool.not_false, Bool.and_true, if_true]
        rw [hm]
        rw [dlookup_liftKeys_present rest meta _ k1 (hasKey_dset_self _ _ _)]
        exact dlookup_dset_self _ _ _
      · have hks2 : k ∈ rest := by
          cases hks with
          | head => exact absurd rfl h1
          | tail _ h2 => exact h2
        split
        · split
          · rename_i w hw
            exact ih _ hks2 (by rw [hasKey_dset_ne _ _ _ _ (fun he => h1 he.symm)]; exact hr)
          · exact ih r hks2 hr
        · exact ih r hks2 hr

theorem mergeIntoProps_ne (r meta r2 : Dict) (k : String)
    (h : mergeIntoProps r meta = some r2) (hk : k ≠ "properties") :
    dlookup r2 k = dlookup r k := by
  unfold mergeIntoProps at h
  split at h
  · cases h
    exact dlookup_dset_ne _ _ _ _ hk
  · cases h
    exact dlookup_dset_ne _ _ _ _ hk
  · cases h

theorem mergeIntoProps_props_obj (r meta r2 p : Dict)
    (hp : dlookup r "properties" = some (JVal.obj p))
    (h : mergeIntoProps r meta = some r2) :
    dlookup r2 "properties" = some (JVal.obj (dupdate p meta)) := by
  unfold mergeIntoProps at h
  rw [hp] at h
  cases h
  exact dlookup_dset_self _ _ _

theorem mergeIntoProps_props_none (r meta r2 : Dict)
    (hp : dlookup r "properties" = none)
    (h : mergeIntoProps r meta = some r2) :
    dlookup r2 "properties" = some (JVal.obj (dupdate [] meta)) := by
  unfold mergeIntoProps at h
  rw [hp] at h
  cases h
  exact dlookup_dset_self _ _ _

theorem dlookup_eq_none_of_not_mem (d : Dict) (k : String)
    (h : k ∉ d.map Prod.fst) : dlookup d k = none := by
  induction d with
  | nil => rfl
  | cons kv rest ih =>
      obtain ⟨k2, w⟩ := kv
      simp only [List.map_cons, List.mem_cons, not_or] at h
      have hs : k2 ≠ k := fun he => h.1 he.symm
      simp [dlookup, hs, ih h.2]

theorem mem_keys_dset (d : Dict) (k a : String) (v : JVal)
    (h : a ∈ (dset d k v).map Prod.fst) : a ∈ d.map Prod.fst ∨ a = k := by
  induction d with
  | nil =>
      simp only [dset, List.map_cons, List.map_nil, List.mem_singleton] at h
      exact Or.inr h
  | cons kv rest ih =>
      obtain ⟨k2, w⟩ := kv
      by_cases h2 : k2 = k
      · subst h2
        simp only [dset, beq_self_eq_true, if_true] at h
        exact Or.inl h
      · simp only [dset, beq_iff_eq, h2, if_false, List.map_cons, List.mem_cons] at h ⊢
        rcases h with rfl | h
        · exact Or.inl (Or.inl rfl)
        · rcases ih h with h3 | h3
          · exact Or.inl (Or.inr h3)
          · exact Or.inr h3

theorem mem_keys_dpop (d : Dict) (k a : String)
    (h : a ∈ (dpop d k).map Prod.fst) : a ∈ d.map Prod.fst := by
  induction d with
  | nil => simp [dpop] at h
  | cons kv rest ih =>
      obtain ⟨k2, w⟩ := kv
      by_cases h2 : k2 = k
      · simp only [dpop, beq_iff_eq, h2, if_true] at h
        simp only [List.map_cons, List.mem_cons]
        exact Or.inr h
      · simp only [dpop, beq_iff_eq, h2, if_false, List.map_cons, List.mem_cons] at h ⊢
        rcases h with rfl | h
        · exact Or.inl rfl
        · exact Or.inr (ih h)

theorem keysNodup_dset (d : Dict) (k : String) (v : JVal) (h : keysNodup d) :
    keysNodup (dset d k v) := by
  induction d with
  | nil => simp [dset, keysNodup]
  | cons kv rest ih =>
      obtain ⟨k2, w⟩ := kv
      simp only [keysNodup, List.map_cons, List.nodup_cons] at h
      obtain ⟨h1, h2⟩ := h
      by_cases hk : k2 = k
      · subst hk
        simp only [dset, beq_self_eq_true, if_true, keysNodup, List.map_cons, List.nodup_cons]
        exact ⟨h1, h2⟩
      · simp only [dset, beq_iff_eq, hk, if_false, keysNodup, List.map_cons,
          List.nodup_cons]
        refine ⟨?_, ih h2⟩
        intro hmem
        rcases mem_keys_dset rest k k2 v hmem with h3 | h3
        · exact h1 h3
        · exact hk h3

theorem keysNodup_dpop (d : Dict) (k : String) (h : keysNodup d) :
    keysNodup (dpop d k) := by
  induction d with
  | nil => simp [dpop, keysNodup]
  | cons kv rest ih =>
      obtain ⟨k2, w⟩ := kv
      simp only [keysNodup, List.map_cons, List.nodup_cons] at h
      obtain ⟨h1, h2⟩ := h
      by_cases hk : k2 = k
      · simpa [dpop, hk, keysNodup] using h2
      · simp only [dpop, beq_iff_eq, hk, if_false, keysNodup, List.map_cons,
          List.nodup_cons]
        exact ⟨fun hmem => h1 (mem_keys_dpop rest k k2 hmem), ih h2⟩

theorem dlookup_dpop_self (d : Dict) (k : String) (h : keysNodup d) :
    dlookup (dpop d k) k = none := by
  induction d with
  | nil => rfl
  | cons kv rest ih =>
      obtain ⟨k2, w⟩ := kv
      simp only [keysNodup, List.map_cons, List.nodup_cons] at h
      obtain ⟨h1, h2⟩ := h
      by_cases hk : k2 = k
      · subst hk
        simp only [dpop, beq_self_eq_true, if_true]
        exact dlookup_eq_none_of_not_mem rest k2 h1
      · simp [dpop, dlookup, hk, ih h2]

theorem hasKey_dpop_false (d : Dict) (k k2 : String) (h : hasKey d k2 = false) :
    hasKey (dpop d k) k2 = false := by
  induction d with
  | nil => rfl
  | cons kv rest ih =>
      obtain ⟨k3, w⟩ := kv
      simp only [hasKey, List.any_cons, Bool.or_eq_false_iff] at h
      obtain ⟨h1, h2⟩ := h
      by_cases hk : k3 = k
      · simpa [dpop, hk, hasKey] using h2
      · simp only [dpop, beq_iff_eq, hk, if_false, hasKey, List.any_cons,
          Bool.or_eq_false_iff]
        exact ⟨h1, ih h2⟩

theorem hasKey_dupdate_false (m p : Dict) (k : String)
    (hp : hasKey p k = false) (hm : hasKey m k = false) :
    hasKey (dupdate p m) k = false := by
  induction m generalizing p with
  | nil => exact hp
  | cons kv rest ih =>
      obtain ⟨k2, v⟩ := kv
      simp only [hasKey, List.any_cons, Bool.or_eq_false_iff] at hm
      obtain ⟨h1, h2⟩ := hm
      have hne : k ≠ k2 := by
        intro he
        subst he
        simp at h1
      simp only [dupdate, List.foldl_cons]
      exact ih (dset p k2 v) (by rw [hasKey_dset_ne p k2 k v hne]; exact hp) h2

theorem keysNodup_liftKeys (ks : List String) (meta r : Dict) (h : keysNodup r) :
    keysNodup (liftKeys ks meta r) := by
  induction ks generalizing r with
  | nil => exact h
  | cons k1 rest ih =>
      simp only [liftKeys]
      split
      · split
        · exact ih _ (keysNodup_dset r k1 _ h)
        · exact ih r h
      · exact ih r h

theorem keysNodup_mergeIntoProps (r meta r2 : Dict)
    (h : mergeIntoProps r meta = some r2) (hr : keysNodup r) : keysNodup r2 := by
  unfold mergeIntoProps at h
  split at h
  · cases h
    exact keysNodup_dset _ _ _ hr
  · cases h
    exact keysNodup_dset _ _ _ hr
  · cases h

theorem keysNodup_renamePair (d : Dict) (src dst : String) (h : keysNodup d) :
    keysNodup (renamePair d src dst) := by
  unfold renamePair
  split
  · split
    · exact keysNodup_dset _ _ _ (keysNodup_dpop d src h)
    · exact h
  · exact h

theorem renamePair_ne (d : Dict) (src dst k : String)
    (h1 : k ≠ src) (h2 : k ≠ dst) :
    dlookup (renamePair d src dst) k = dlookup d k := by
  unfold renamePair
  split
  · split
    · rw [dlookup_dset_ne _ _ _ _ h2, dlookup_dpop_ne _ _ _ h1]
    · rfl
  · rfl

theorem renamePair_hasKey_ne (d : Dict) (src dst k : String)
    (h1 : k ≠ src) (h2 : k ≠ dst) :
    hasKey (renamePair d src dst) k = hasKey d k := by
  rw [hasKey_iff_dlookup, hasKey_iff_dlookup, renamePair_ne d src dst k h1 h2]

theorem renamePair_skip (d : Dict) (src dst : String) (h : hasKey d dst = true) :
    renamePair d src dst = d := by
  unfold renamePair
  rw [h]
  simp

theorem renamePair_renames (d : Dict) (src dst : String) (v : JVal)
    (hsrc : dlookup d src = some v) (hdst : hasKey d dst = false) :
    dlookup (renamePair d src dst) dst = some v := by
  unfold renamePair
  have hk : hasKey d src = true := by
    rw [hasKey_iff_dlookup, hsrc]
    rfl
  rw [hk, hdst]
  simp only [Bool.not_false, Bool.and_true, if_true]
  rw [hsrc]
  exact dlookup_dset_self _ _ _

theorem liftSourceDocs_snd_ne (meta result : Dict) (k : String)
    (h : k ≠ "source_documents") :
    dlookup (liftSourceDocs meta result).2 k = dlookup result k := by
  unfold liftSourceDocs
  split
  · split
    · exact dlookup_dset_ne _ _ _ _ h
    · rfl
  · rfl

theorem liftSourceDocs_fst_false (meta result : Dict) (k : String)
    (h : hasKey meta k = false) :
    hasKey (liftSourceDocs meta result).1 k = false := by
  unfold liftSourceDocs
  split
  · split
    · exact hasKey_dpop_false _ _ _ h
    · exact h
  · exact h

theorem keysNodup_liftSourceDocs_snd (meta result : Dict) (h : keysNodup result) :
    keysNodup (liftSourceDocs meta result).2 := by
  unfold liftSourceDocs
  split
  · split
    · exact keysNodup_dset _ _ _ h
    · exact h
  · exact h

theorem metadataStage_ne (result r : Dict) (k : String)
    (h : metadataStage result = some r)
    (h1 : k ≠ "metadata") (h2 : k ≠ "source_documents") (h3 : k ≠ "properties")
    (h4 : k ≠ "relationship_id") (h5 : k ≠ "evidence_document_id") :
    dlookup r k = dlookup result k := by
  unfold metadataStage at h
  cases hv : dlookup result "metadata" with
  | none =>
      simp only [hv] at h
      cases h
      rw [dlookup_dpop_ne _ _ _ h5, dlookup_dpop_ne _ _ _ h4]
  | some v =>
      cases v with
      | obj meta =>
          simp only [hv] at h
          cases hmp : mergeIntoProps (liftSourceDocs meta (dpop result "metadata")).2
              (liftSourceDocs meta (dpop result "metadata")).1 with
          | none =>
              simp only [hmp] at h
              exact absurd h (by simp)
          | some r2 =>
              simp only [hmp] at h
              cases h
              rw [dlookup_dpop_ne _ _ _ h5, dlookup_dpop_ne _ _ _ h4,
                mergeIntoProps_ne _ _ _ _ hmp h3,
                liftSourceDocs_snd_ne meta (dpop result "metadata") k h2,
                dlookup_dpop_ne _ _ _ h1]
      | null =>
          simp only [hv] at h
          cases h
          rw [dlookup_dpop_ne _ _ _ h5, dlookup_dpop_ne _ _ _ h4]
      | bool b =>
          simp only [hv] at h
          cases h
          rw [dlookup_dpop_ne _ _ _ h5, dlookup_dpop_ne _ _ _ h4]
      | num n =>
          simp only [hv] at h
          cases h
          rw [dlookup_dpop_ne _ _ _ h5, dlookup_dpop_ne _ _ _ h4]
      | str t =>
          simp only [hv] at h
          cases h
          rw [dlookup_dpop_ne _ _ _ h5, dlookup_dpop_ne _ _ _ h4]
      | arr a =>
          simp only [hv] at h
          cases h
          rw [dlookup_dpop_ne _ _ _ h5, dlookup_dpop_ne _ _ _ h4]

theorem metadataStage_pops (result r : Dict) (h : metadataStage result = some r)
    (hnd : keysNodup result) :
    dlookup r "relationship_id" = none ∧ dlookup r "evidence_document_id" = none := by
  have base : ∀ t : Dict, keysNodup t →
      dlookup (dpop (dpop t "relationship_id") "evidence_document_id")
          "relationship_id" = none ∧
      dlookup (dpop (dpop t "relationship_id") "evidence_document_id")
          "evidence_document_id" = none := by
    intro t ht
    constructor
    · rw [dlookup_dpop_ne _ _ _ (by decide)]
      exact dlookup_dpop_self t "relationship_id" ht
    · exact dlookup_dpop_self _ "evidence_document_id"
        (keysNodup_dpop t "relationship_id" ht)
  unfold metadataStage at h
  cases hv : dlookup result "metadata" with
  | none =>
      simp only [hv] at h
      cases h
      exact base result hnd
  | some v =>
      cases v with
      | obj meta =>
          simp only [hv] at h
          cases hmp : mergeIntoProps (liftSourceDocs meta (dpop result "metadata")).2
              (liftSourceDocs meta (dpop result "metadata")).1 with
          | none =>
              simp only [hmp] at h
              exact absurd h (by simp)
          | some r2 =>
              simp only [hmp] at h
              cases h
              exact base r2 (keysNodup_mergeIntoProps _ _ _ hmp
                (keysNodup_liftSourceDocs_snd meta _
                  (keysNodup_dpop result "metadata" hnd)))
      | null =>
          simp only [hv] at h
          cases h
          exact base result hnd
      | bool b =>
          simp only [hv] at h
          cases h
          exact base result hnd
      | num n =>
          simp only [hv] at h
          cases h
          exact base result hnd
      | str t =>
          simp only [hv] at h
          cases h
          exact base result hnd
      | arr a =>
          simp only [hv] at h
          cases h
          exact base result hnd

/-- Claim C6 counterexample: for a row whose properties map holds color
red while the auxiliary map holds color blue and a liftable status key,
normalization overwrites the direct properties value with the auxiliary
one (blue, not the claimed red) and also copies the lifted status key
into properties rather than removing it from the merged map. -/
theorem claim6_counterexample :
    normalize_entity entityRowClash = some entityRowClashResult ∧
    dlookup entityRowClashResult "properties" =
      some (JVal.obj [("color", JVal.str "blue"), ("status", JVal.str "active")]) ∧
    JVal.str "blue" ≠ JVal.str "red" ∧
    dlookup entityRowClashResult "status" = some (JVal.str "active") ∧
    hasKey [("color", JVal.str "blue"), ("status", JVal.str "active")] "status" = true := by
  refine ⟨rfl, rfl, ?_, rfl, rfl⟩
  intro h
  rw [JVal.str.injEq] at h
  exact absurd h (by decide)

/-- Claim C6 amended: the lift copies status, usage_count, source and
created_at out of the auxiliary map only when the canonical field is
not already directly present (direct fields win), but the lifted keys
are not removed from the map: the entire auxiliary map is then merged
into properties with dict-update semantics, so auxiliary values do
overwrite same-name properties keys the row already carries. -/
theorem claim6_amended :
    (∀ d r k, normalize_entity d = some r → k ∈ entityLiftKeys →
      hasKey d k = true → dlookup r k = dlookup d k) ∧
    (∀ d meta r k v, dlookup d "metadata" = some (JVal.obj meta) →
      k ∈ entityLiftKeys → hasKey d k = false → dlookup meta k = some v →
      normalize_entity d = some r → dlookup r k = some v) ∧
    (∀ d meta r p, dlookup d "metadata" = some (JVal.obj meta) → meta ≠ [] →
      dlookup d "properties" = some (JVal.obj p) → normalize_entity d = some r →
      dlookup r "properties" = some (JVal.obj (dupdate p meta))) ∧
    (∀ d meta r, dlookup d "metadata" = some (JVal.obj meta) → meta ≠ [] →
      dlookup d "properties" = none → normalize_entity d = some r →
      dlookup r "properties" = some (JVal.obj (dupdate [] meta))) := by
  refine ⟨?_, ?_, ?_, ?_⟩
  · intro d r k hn hk hkd
    have hkne : k ≠ "metadata" ∧ k ≠ "properties" := by
      simp only [entityLiftKeys, List.mem_cons, List.not_mem_nil, or_false] at hk
      rcases hk with rfl | rfl | rfl | rfl <;> exact ⟨by decide, by decide⟩
    unfold normalize_entity at hn
    cases hv : dlookup d "metadata" with
    | none =>
        simp only [hv] at hn
        cases hn
        rfl
    | some v =>
        cases v with
        | obj meta =>
            simp only [hv] at hn
            have hkd2 : hasKey (dpop d "metadata") k = true := by
              rw [hasKey_dpop_ne _ _ _ hkne.1]
              exact hkd
            have hL : dlookup (liftKeys entityLiftKeys meta (dpop d "metadata")) k
                = dlookup d k := by
              rw [dlookup_liftKeys_present _ _ _ _ hkd2, dlookup_dpop_ne _ _ _ hkne.1]
            split at hn
            · cases hn
              exact hL
            · rw [mergeIntoProps_ne _ _ _ _ hn hkne.2, hL]
        | null => simp only [hv] at hn; cases hn; rfl
        | bool b => simp only [hv] at hn; cases hn; rfl
        | num n => simp only [hv] at hn; cases hn; rfl
        | str t => simp only [hv] at hn; cases hn; rfl
        | arr a => simp only [hv] at hn; cases hn; rfl
  · intro d meta r k v hv hk hkd hm hn
    have hkne : k ≠ "metadata" ∧ k ≠ "properties" := by
      simp only [entityLiftKeys, List.mem_cons, List.not_mem_nil, or_false] at hk
      rcases hk with rfl | rfl | rfl | rfl <;> exact ⟨by decide, by decide⟩
    unfold normalize_entity at hn
    simp only [hv] at hn
    have hkd2 : hasKey (dpop d "metadata") k = false := by
      rw [hasKey_dpop_ne _ _ _ hkne.1]
      exact hkd
    have hL : dlookup (liftKeys entityLiftKeys meta (dpop d "metadata")) k = some v :=
      liftKeys_lifts entityLiftKeys meta _ k v hk hkd2 hm
    split at hn
    · rename_i hemp
      rw [List.isEmpty_iff.mp hemp] at hm
      cases hm
    · rw [mergeIntoProps_ne _ _ _ _ hn hkne.2]
      exact hL
  · intro d meta r p hv hne hp hn
    unfold normalize_entity at hn
    simp only [hv] at hn
    have hLp : dlookup (liftKeys entityLiftKeys meta (dpop d "metadata")) "properties"
        = some (JVal.obj p) := by
      rw [dlookup_liftKeys_not_mem _ _ _ _ (by decide), dlookup_dpop_ne _ _ _ (by decide)]
      exact hp
    split at hn
    · rename_i hemp
      exact absurd (List.isEmpty_iff.mp hemp) hne
    · exact mergeIntoProps_props_obj _ _ _ _ hLp hn
  · intro d meta r hv hne hp hn
    unfold normalize_entity at hn
    simp only [hv] at hn
    have hLp : dlookup (liftKeys entityLiftKeys meta (dpop d "metadata")) "properties"
        = none := by
      rw [dlookup_liftKeys_not_mem _ _ _ _ (by decide), dlookup_dpop_ne _ _ _ (by decide)]
      exact hp
    split at hn
    · rename_i hemp
      exact absurd (List.isEmpty_iff.mp hemp) hne
    · exact mergeIntoProps_props_none _ _ _ hLp hn

/-- Witness for claim C6 amended: the overwrite conjunct applied to the
concrete clashing row. -/
theorem claim6_witness :
    dlookup entityRowClashResult "properties" =
      some (JVal.obj (dupdate [("color", JVal.str "red")]
        [("color", JVal.str "blue"), ("status", JVal.str "active")])) :=
  claim6_amended.2.2.1 entityRowClash
    [("color", JVal.str "blue"), ("status", JVal.str "active")]
    entityRowClashResult [("color", JVal.str "red")] rfl (by simp) rfl rfl

theorem metadataStage_props (result r meta p q : Dict)
    (hv : dlookup result "metadata" = some (JVal.obj meta))
    (hp : dlookup result "properties" = some (JVal.obj p))
    (h : metadataStage result = some r)
    (hq : dlookup r "properties" = some (JVal.obj q))
    (hp1 : hasKey p "relationship_id" = false)
    (hm1 : hasKey meta "relationship_id" = false)
    (hp2 : hasKey p "evidence_document_id" = false)
    (hm2 : hasKey meta "evidence_document_id" = false) :
    hasKey q "relationship_id" = false ∧ hasKey q "evidence_document_id" = false := by
  unfold metadataStage at h
  simp only [hv] at h
  cases hmp : mergeIntoProps (liftSourceDocs meta (dpop result "metadata")).2
      (liftSourceDocs meta (dpop result "metadata")).1 with
  | none =>
      simp only [hmp] at h
      exact absurd h (by simp)
  | some r2 =>
      simp only [hmp] at h
      cases h
      have hr2p : dlookup r2 "properties" =
          some (JVal.obj (dupdate p (liftSourceDocs meta (dpop result "metadata")).1)) := by
        apply mergeIntoProps_props_obj _ _ _ _ _ hmp
        rw [liftSourceDocs_snd_ne _ _ _ (by decide), dlookup_dpop_ne _ _ _ (by decide)]
        exact hp
      rw [dlookup_dpop_ne _ _ _ (by decide), dlookup_dpop_ne _ _ _ (by decide), hr2p] at hq
      simp only [Option.some.injEq, JVal.obj.injEq] at hq
      subst hq
      constructor
      · exact hasKey_dupdate_false _ _ _ hp1 (liftSourceDocs_fst_false _ _ _ hm1)
      · exact hasKey_dupdate_false _ _ _ hp2 (liftSourceDocs_fst_false _ _ _ hm2)

/-- Claim C8: a relationship row using source_entity_id and
target_entity_id (with the canonical names absent) normalizes to the
same canonical (subjectId, predicate, objectId) triple as the
equivalent row already carrying subject_id and object_id; when both
naming forms are present the canonical names win; and the row fields
relationship_id and evidence_document_id are dropped, appearing neither
at top level nor (when neither the raw properties map nor the auxiliary
map carries keys of those names) inside the normalized properties. -/
theorem claim8_relationship_naming :
    (∀ d r v1 v2, dlookup d "source_entity_id" = some v1 →
      dlookup d "target_entity_id" = some v2 →
      hasKey d "subject_id" = false → hasKey d "object_id" = false →
      normalize_relationship d = some r →
      dlookup r "subject_id" = some v1 ∧ dlookup r "object_id" = some v2 ∧
      dlookup r "predicate" = dlookup d "predicate") ∧
    (∀ d r w1 w2, dlookup d "subject_id" = some w1 →
      dlookup d "object_id" = some w2 →
      normalize_relationship d = some r →
      dlookup r "subject_id" = some w1 ∧ dlookup r "object_id" = some w2 ∧
      dlookup r "predicate" = dlookup d "predicate") ∧
    (∀ d r, keysNodup d → normalize_relationship d = some r →
      dlookup r "relationship_id" = none ∧
      dlookup r "evidence_document_id" = none) ∧
    (∀ d meta p r q, dlookup d "metadata" = some (JVal.obj meta) →
      dlookup d "properties" = some (JVal.obj p) →
      hasKey p "relationship_id" = false → hasKey meta "relationship_id" = false →
      hasKey p "evidence_document_id" = false →
      hasKey meta "evidence_document_id" = false →
      normalize_relationship d = some r →
      dlookup r "properties" = some (JVal.obj q) →
      hasKey q "relationship_id" = false ∧
      hasKey q "evidence_document_id" = false) := by
  refine ⟨?_, ?_, ?_, ?_⟩
  · intro d r v1 v2 hsrc htgt hsubj hobj hn
    unfold normalize_relationship at hn
    have h1subj : dlookup (renamePair d "source_entity_id" "subject_id")
        "subject_id" = some v1 := renamePair_renames d _ _ v1 hsrc hsubj
    have h1tgt : dlookup (renamePair d "source_entity_id" "subject_id")
        "target_entity_id" = some v2 := by
      rw [renamePair_ne _ _ _ _ (by decide) (by decide)]
      exact htgt
    have h1obj : hasKey (renamePair d "source_entity_id" "subject_id")
        "object_id" = false := by
      rw [renamePair_hasKey_ne _ _ _ _ (by decide) (by decide)]
      exact hobj
    refine ⟨?_, ?_, ?_⟩
    · rw [metadataStage_ne _ _ _ hn (by decide) (by decide) (by decide) (by decide)
        (by decide), renamePair_ne _ _ _ _ (by decide) (by decide)]
      exact h1subj
    · rw [metadataStage_ne _ _ _ hn (by decide) (by decide) (by decide) (by decide)
        (by decide)]
      exact renamePair_renames _ _ _ v2 h1tgt h1obj
    · rw [metadataStage_ne _ _ _ hn (by decide) (by decide) (by decide) (by decide)
        (by decide), renamePair_ne _ _ _ _ (by decide) (by decide),
        renamePair_ne _ _ _ _ (by decide) (by decide)]
  · intro d r w1 w2 hsubj hobj hn
    unfold normalize_relationship at hn
    have hk1 : hasKey d "subject_id" = true := by
      rw [hasKey_iff_dlookup, hsubj]
      rfl
    rw [renamePair_skip _ _ _ hk1] at hn
    have hk2 : hasKey d "object_id" = true := by
      rw [hasKey_iff_dlookup, hobj]
      rfl
    rw [renamePair_skip _ _ _ hk2] at hn
    refine ⟨?_, ?_, ?_⟩
    · rw [metadataStage_ne _ _ _ hn (by decide) (by decide) (by decide) (by decide)
        (by decide)]
      exact hsubj
    · rw [metadataStage_ne _ _ _ hn (by decide) (by decide) (by decide) (by decide)
        (by decide)]
      exact hobj
    · rw [metadataStage_ne _ _ _ hn (by decide) (by decide) (by decide) (by decide)
        (by decide)]
  · intro d r hnd hn
    unfold normalize_relationship at hn
    exact metadataStage_pops _ _ hn
      (keysNodup_renamePair _ _ _ (keysNodup_renamePair _ _ _ hnd))
  · intro d meta p r q hv hp hp1 hm1 hpe hme hn hq
    unfold normalize_relationship at hn
    have hv2 : dlookup (renamePair (renamePair d "source_entity_id" "subject_id")
        "target_entity_id" "object_id") "metadata" = some (JVal.obj meta) := by
      rw [renamePair_ne _ _ _ _ (by decide) (by decide),
        renamePair_ne _ _ _ _ (by decide) (by decide)]
      exact hv
    have hpd2 : dlookup (renamePair (renamePair d "source_entity_id" "subject_id")
        "target_entity_id" "object_id") "properties" = some (JVal.obj p) := by
      rw [renamePair_ne _ _ _ _ (by decide) (by decide),
        renamePair_ne _ _ _ _ (by decide) (by decide)]
      exact hp
    exact metadataStage_props _ _ _ _ _ hv2 hpd2 hn hq hp1 hm1 hpe hme

/-- Witness for claim C8 at the concrete producer-named row. -/
theorem claim8_witness :
    dlookup [("predicate", JVal.str "p"), ("subject_id", JVal.str "x1"),
        ("object_id", JVal.str "x2")] "subject_id" = some (JVal.str "x1") ∧
    dlookup [("predicate", JVal.str "p"), ("subject_id", JVal.str "x1"),
        ("object_id", JVal.str "x2")] "object_id" = some (JVal.str "x2") ∧
    dlookup [("predicate", JVal.str "p"), ("subject_id", JVal.str "x1"),
        ("object_id", JVal.str "x2")] "predicate" =
      dlookup relRowProducer "predicate" :=
  claim8_relationship_naming.1 relRowProducer
    [("predicate", JVal.str "p"), ("subject_id", JVal.str "x1"),
      ("object_id", JVal.str "x2")]
    (JVal.str "x1") (JVal.str "x2") rfl rfl rfl rfl rfl

end KG
